import Mathlib

/-!
Shallow embedding of the client session controller of the willis-stock-genie
front end (src/web/app-improved.js and src/web/config.js).

The controller state is the set of instance fields of the FinGeniusApp class
that the verified claims depend on, together with the agent progress cards it
keeps in the DOM (mirrored here as an AgentBoard) and two ghost counters:
how many times the body of showAnalysisResults has run past its
resultsDisplayed guard, and how many report-watchdog degraded-mode notices
have been shown.  Inbound WebSocket messages and timer expiries are events;
each handler below is a direct translation of the correspondingly named
method of the JavaScript class.
-/

namespace StockGenie

/-- Status of one agent progress card.  In the DOM, `started` corresponds to
the `active` CSS class, `completed` to the `completed` class, and `waiting`
to neither. -/
inductive AgentStatus
  | waiting
  | started
  | completed
deriving DecidableEq, Repr

/-- The six fixed analyst identities created by resetProgress. -/
inductive AgentId
  | sentiment
  | risk
  | institutional_investor
  | technical
  | chip_analysis
  | big_deal
deriving DecidableEq, Repr

/-- The six agent progress cards kept in the #agentProgress container. -/
structure AgentBoard where
  sentiment : AgentStatus
  risk : AgentStatus
  institutional_investor : AgentStatus
  technical : AgentStatus
  chip_analysis : AgentStatus
  big_deal : AgentStatus
deriving DecidableEq, Repr

def AgentBoard.get (b : AgentBoard) : AgentId → AgentStatus
  | .sentiment => b.sentiment
  | .risk => b.risk
  | .institutional_investor => b.institutional_investor
  | .technical => b.technical
  | .chip_analysis => b.chip_analysis
  | .big_deal => b.big_deal

def AgentBoard.set (b : AgentBoard) : AgentId → AgentStatus → AgentBoard
  | .sentiment, st => { b with sentiment := st }
  | .risk, st => { b with risk := st }
  | .institutional_investor, st => { b with institutional_investor := st }
  | .technical, st => { b with technical := st }
  | .chip_analysis, st => { b with chip_analysis := st }
  | .big_deal, st => { b with big_deal := st }

/-- The card statuses as a list, used to count completed cards the way
updateProgressBar queries `.agent-card.completed`. -/
def AgentBoard.statuses (b : AgentBoard) : List AgentStatus :=
  [b.sentiment, b.risk, b.institutional_investor,
   b.technical, b.chip_analysis, b.big_deal]

/-- document.querySelectorAll of the agent cards carrying the completed
class, as counted by updateProgressBar. -/
def completedCount (b : AgentBoard) : Nat :=
  (b.statuses.filter (fun st => decide (st = AgentStatus.completed))).length

def AgentBoard.allWaiting : AgentBoard :=
  ⟨.waiting, .waiting, .waiting, .waiting, .waiting, .waiting⟩

/-- Battle Result payload of a battle_results message. -/
structure BattleResult where
  final_decision : String
  vote_count : List (String × Nat)
deriving DecidableEq, Repr

/-- The analysisResults dictionary.  The handlers treat it as a mutable JS
object: handleBattleResults writes a `battle` entry into it, while
handleAnalysisComplete replaces the whole object with message.results.
`otherKeys` counts the entries other than `battle` (their payloads are opaque
to the claims verified here); Object.keys length is positive iff the battle
entry is present or otherKeys is positive. -/
structure ResultsMap where
  battle : Option BattleResult
  otherKeys : Nat
deriving DecidableEq, Repr

/-- Object.keys(results).length > 0, as tested by handleAnalysisComplete. -/
def ResultsMap.isNonempty (r : ResultsMap) : Bool :=
  r.battle.isSome || decide (0 < r.otherKeys)

inductive ConnStatus
  | disconnected
  | connecting
  | connected
  | analyzing
deriving DecidableEq, Repr

inductive Phase
  | research
  | battle
  | report
deriving DecidableEq, Repr

/-- Controller state: the FinGeniusApp instance fields used by the claims,
the agent cards, the pending report watchdog timer (reportCompleteTimeout is
non-null and not yet fired iff reportTimeoutArmed), and two ghost counters
(displayCount, degradedNotices). -/
structure AppState where
  currentStock : Option String
  connectionStatus : ConnStatus
  analysisCompleted : Bool
  isBattleComplete : Bool
  awaitingBattleCompletion : Bool
  resultsDisplayed : Bool
  analysisHasResults : Bool
  pendingSuccessToast : Bool
  lastAnalysisElapsedTime : Nat
  analysisResults : Option ResultsMap
  progress : ℚ
  agents : AgentBoard
  reportTimeoutArmed : Bool
  displayCount : Nat
  degradedNotices : Nat
deriving DecidableEq, Repr

/-- State right after the constructor ran and resetProgress built the six
waiting cards. -/
def initialState : AppState :=
  { currentStock := none
    connectionStatus := .disconnected
    analysisCompleted := false
    isBattleComplete := false
    awaitingBattleCompletion := false
    resultsDisplayed := false
    analysisHasResults := false
    pendingSuccessToast := false
    lastAnalysisElapsedTime := 0
    analysisResults := none
    progress := 0
    agents := AgentBoard.allWaiting
    reportTimeoutArmed := false
    displayCount := 0
    degradedNotices := 0 }

/-- Math.min on two numbers. -/
def jsMin (a b : ℚ) : ℚ := if a ≤ b then a else b

/-- Math.max on two numbers. -/
def jsMax (a b : ℚ) : ℚ := if a ≤ b then b else a

/-- Math.max(0, Math.min(percent, 100)) from setProgress. -/
def clampPercent (p : ℚ) : ℚ := jsMax 0 (jsMin p 100)

/-- setProgress(percent, text): stores the clamped percentage (the optional
text only updates a DOM label). -/
def setProgressState (s : AppState) (p : ℚ) : AppState :=
  { s with progress := clampPercent p }

/-- Math.round, which rounds half toward positive infinity. -/
def jsRound (x : ℚ) : ℤ := ⌊x + 1 / 2⌋

/-- showAnalysisResults: returns immediately when resultsDisplayed is
already set; otherwise marks resultsDisplayed, clears
awaitingBattleCompletion, sets the bar to 100, emits the deferred success
toast when pendingSuccessToast and analysisHasResults are both set, and
always clears pendingSuccessToast.  The ghost displayCount counts the runs
past the guard. -/
def showAnalysisResults (s : AppState) : AppState :=
  if s.resultsDisplayed then s
  else
    let s1 := { s with resultsDisplayed := true
                       awaitingBattleCompletion := false
                       displayCount := s.displayCount + 1 }
    let s2 := setProgressState s1 100
    let s3 := if s2.pendingSuccessToast && s2.analysisHasResults
              then { s2 with pendingSuccessToast := false }
              else s2
    { s3 with pendingSuccessToast := false }

/-- updateProgressBar: recount the completed cards and set the bar to
completedAgents / 6 * 100. -/
def totalAgents : Nat := 6

def updateProgressBar (s : AppState) : AppState :=
  let completedAgents := completedCount s.agents
  setProgressState s (((completedAgents : ℚ) / (totalAgents : ℚ)) * 100)

/-- handleAgentProgress for a concrete agent: a started message activates the
card (removing any completed class), a completed message marks it completed
and recomputes the bar, any other status leaves the cards untouched.
A message with agent equal to the string all only rewrites a text label and
is therefore not modelled as a card update. -/
def handleAgentProgress (s : AppState) (agent : AgentId)
    (status : AgentStatus) : AppState :=
  match status with
  | .started => { s with agents := s.agents.set agent .started }
  | .completed =>
      updateProgressBar { s with agents := s.agents.set agent .completed }
  | .waiting => s

/-- handleBattleStarted: fixed 80 percent milestone (the battle card reveal
is DOM-only). -/
def handleBattleStarted (s : AppState) : AppState :=
  setProgressState s 80

/-- handleBattleResults: set isBattleComplete, clear
awaitingBattleCompletion, set the bar to 95, store the battle entry into
analysisResults (creating the object when absent), then trigger
showAnalysisResults when analysisCompleted holds and either the handler was
awaited or nothing was displayed yet. -/
def handleBattleResults (s : AppState) (result : BattleResult) : AppState :=
  let wasAwaitingBattle := s.awaitingBattleCompletion
  let s1 := { s with isBattleComplete := true, awaitingBattleCompletion := false }
  let s2 := setProgressState s1 95
  let stored := s2.analysisResults.getD { battle := none, otherKeys := 0 }
  let s3 := { s2 with analysisResults := some { stored with battle := some result } }
  if s3.analysisCompleted && (wasAwaitingBattle || !s3.resultsDisplayed)
  then showAnalysisResults s3
  else s3

/-- handleAnalysisComplete: cancel the report watchdog, overwrite
analysisResults with message.results, mark analysisCompleted, record whether
the results object is nonempty and the elapsed seconds, then either display
(when the battle already completed) or wait for battle_results at 90 percent
with a primed pendingSuccessToast; finally clear pendingSuccessToast when the
results were empty or the battle already completed. -/
def handleAnalysisComplete (s : AppState) (results : ResultsMap)
    (elapsed : Nat) : AppState :=
  let s1 := { s with reportTimeoutArmed := false
                     analysisResults := some results
                     connectionStatus := .connected
                     analysisCompleted := true }
  let hasResults := results.isNonempty
  let s2 := { s1 with analysisHasResults := hasResults
                      lastAnalysisElapsedTime := elapsed }
  let s3 :=
    if s2.isBattleComplete then showAnalysisResults s2
    else
      let t := setProgressState { s2 with awaitingBattleCompletion := true } 90
      { t with pendingSuccessToast := true }
  let s4 := if !hasResults then { s3 with pendingSuccessToast := false } else s3
  if s4.isBattleComplete then { s4 with pendingSuccessToast := false } else s4

/-- Delay of the report watchdog armed by handlePhaseCompleted, in
milliseconds. -/
def reportWatchdogDelayMs : Nat := 30000

/-- handlePhaseCompleted: on phase report, clear any existing
reportCompleteTimeout and arm a fresh one (so exactly one timer is pending);
other phases only toast. -/
def handlePhaseCompleted (s : AppState) (phase : Phase) : AppState :=
  if phase = Phase.report then { s with reportTimeoutArmed := true } else s

/-- Expiry of the report watchdog: the callback runs only when an armed timer
is still pending (clearTimeout prevents a cancelled timer from firing); it
shows one degraded-mode notice and the timer is spent. -/
def fireReportTimeout (s : AppState) : AppState :=
  if s.reportTimeoutArmed then
    { s with reportTimeoutArmed := false
             degradedNotices := s.degradedNotices + 1 }
  else s

/-- Events processed by the controller: the inbound messages the claims are
about, plus the report-watchdog timer expiry. -/
inductive ClientEvent
  | agentProgress (agent : AgentId) (status : AgentStatus)
  | battleStarted
  | battleResults (result : BattleResult)
  | analysisComplete (results : ResultsMap) (elapsed : Nat)
  | phaseCompleted (phase : Phase)
  | reportTimeoutFire
deriving DecidableEq, Repr

def step (s : AppState) : ClientEvent → AppState
  | .agentProgress a st => handleAgentProgress s a st
  | .battleStarted => handleBattleStarted s
  | .battleResults r => handleBattleResults s r
  | .analysisComplete res el => handleAnalysisComplete s res el
  | .phaseCompleted ph => handlePhaseCompleted s ph
  | .reportTimeoutFire => fireReportTimeout s

def run (s : AppState) (es : List ClientEvent) : AppState :=
  es.foldl step s

/-- resetProgress, run at the start of every analysis run: clears the
per-run completion and display flags, zeroes the bar, and rebuilds the six
agent cards in the waiting state.  It does not touch analysisResults, the
watchdog, or the ghost counters. -/
def resetProgress (s : AppState) : AppState :=
  let s1 := { s with analysisCompleted := false
                     isBattleComplete := false
                     awaitingBattleCompletion := false
                     resultsDisplayed := false
                     lastAnalysisElapsedTime := 0
                     analysisHasResults := false
                     pendingSuccessToast := false }
  let s2 := setProgressState s1 0
  { s2 with agents := AgentBoard.allWaiting }

/-! ### Input validation and request submission -/

/-- The whitespace characters stripped by the JavaScript trim used on the
stock code input (space, tab and line terminators). -/
def jsWhitespace (c : Char) : Bool :=
  c = ' ' || c = '\t' || c = '\n' || c = '\r' || c = '\x0b' || c = '\x0c'

/-- value.trim(): strip leading and trailing whitespace. -/
def jsTrim (s : String) : String :=
  ⟨(((s.data.dropWhile jsWhitespace).reverse.dropWhile jsWhitespace).reverse)⟩

/-- The test of the anchored regular expression of four to six digit
characters used by validateInput and startAnalysis. -/
def matchesStockCodeRegex (s : String) : Bool :=
  decide (4 ≤ s.length) && decide (s.length ≤ 6) && s.data.all Char.isDigit

/-- Spec-side reading of: the string matches the anchored regex of four to
six digits.  Stated independently of matchesStockCodeRegex so the code-side
test can be compared against it. -/
def MatchesDigitRegexSpec (s : String) : Prop :=
  4 ≤ s.length ∧ s.length ≤ 6 ∧ ∀ c ∈ s.data, c.isDigit = true

/-- Feedback shown by the keystroke-level validateInput. -/
inductive InputFeedback
  | cleared
  | formatError
  | formatOk
deriving DecidableEq, Repr

/-- validateInput: trim, clear previous feedback, stay silent on empty
input, otherwise test the regex and show a format error or a format-ok
notice. -/
def validateInput (value : String) : InputFeedback :=
  let stockCode := jsTrim value
  if stockCode = "" then .cleared
  else if !matchesStockCodeRegex stockCode then .formatError
  else .formatOk

/-- What a submission attempt ended up doing.  The two blocked outcomes show
the validation-error state and send nothing; sendRequest submits over the
open socket; offlineFallback runs the local mock substitute. -/
inductive SubmitAction
  | blockedEmpty
  | blockedFormat
  | sendRequest
  | offlineFallback
deriving DecidableEq, Repr

/-- validateStockCode: trim the input field, block only the empty string
with a validation error, record currentStock, then submit a validate_stock
request when the socket is open and fall back to useMockValidation
otherwise.  It performs no regex test. -/
def validateStockCode (s : AppState) (inputValue : String)
    (socketOpen : Bool) : SubmitAction × AppState :=
  let stockCode := jsTrim inputValue
  if stockCode = "" then (.blockedEmpty, s)
  else
    let s1 := { s with currentStock := some stockCode }
    if socketOpen then (.sendRequest, s1) else (.offlineFallback, s1)

/-- startAnalysis: trim the input field, block the empty string, block any
input failing the regex with the format validation error, otherwise record
currentStock, reset the per-run progress state, and submit a start_analysis
request over the open socket or run simulateAnalysis offline. -/
def startAnalysis (s : AppState) (inputValue : String)
    (socketOpen : Bool) : SubmitAction × AppState :=
  let stockCode := jsTrim inputValue
  if stockCode = "" then (.blockedEmpty, s)
  else if !matchesStockCodeRegex stockCode then (.blockedFormat, s)
  else
    let s1 := resetProgress { s with currentStock := some stockCode }
    if socketOpen then (.sendRequest, s1) else (.offlineFallback, s1)

/-! ### Offline mock validation -/

structure StockInfo where
  code : String
  name : String
  industry : String
deriving DecidableEq, Repr

/-- The built-in table of known codes inside getMockStockInfo. -/
def mockStocks : List (String × StockInfo) :=
  [("2330", ⟨"2330", "台積電", "半導體"⟩),
   ("2317", ⟨"2317", "鴻海", "電子零件"⟩),
   ("2454", ⟨"2454", "聯發科", "半導體"⟩),
   ("3008", ⟨"3008", "大立光", "光學鏡頭"⟩),
   ("2881", ⟨"2881", "富邦金", "金融保險"⟩),
   ("2882", ⟨"2882", "國泰金", "金融保險"⟩)]

/-- getMockStockInfo: table lookup, null when the code is absent. -/
def getMockStockInfo (stockCode : String) : Option StockInfo :=
  (mockStocks.find? (fun p => p.1 == stockCode)).map Prod.snd

/-- The delay in milliseconds before useMockValidation resolves. -/
def mockValidationDelayMs : Nat := 1000

/-- Final state the offline validation resolves to. -/
inductive MockValidationOutcome
  | success (info : StockInfo)
  | failure
deriving DecidableEq, Repr

/-- useMockValidation: after the delay, show the looked-up name and a
success notice when the code is in the table, and the not-found validation
error otherwise. -/
def useMockValidation (stockCode : String) : MockValidationOutcome :=
  match getMockStockInfo stockCode with
  | some info => .success info
  | none => .failure

/-! ### Backend base-URL resolution (src/web/config.js) -/

/-- The hostname test of CONFIG.API.getBaseUrl: the page counts as served
from a loopback hostname exactly when window.location.hostname is localhost
or 127.0.0.1. -/
def isLoopbackHostname (hostname : String) : Bool :=
  hostname == "localhost" || hostname == "127.0.0.1"

def localBaseUrl : String := "http://localhost:8000"

def productionBaseUrl : String := "https://willis-stock-genie-api.onrender.com"

/-- CONFIG.API.getBaseUrl as a function of the page hostname. -/
def getBaseUrl (hostname : String) : String :=
  if isLoopbackHostname hostname then localBaseUrl else productionBaseUrl

def strStartsWith (s p : String) : Bool :=
  p.data.isPrefixOf s.data

/-- baseUrl.replace of the anchored http or https scheme prefix by the empty
string: strip https:// or http:// when present. -/
def stripHttpScheme (url : String) : String :=
  if strStartsWith url "https://" then ⟨url.data.drop 8⟩
  else if strStartsWith url "http://" then ⟨url.data.drop 7⟩
  else url

/-- CONFIG.API.getWebSocketUrl: wss when the base URL starts with https,
else ws, glued to the scheme-stripped host part of the base URL. -/
def getWebSocketUrl (hostname : String) : String :=
  let baseUrl := getBaseUrl hostname
  let wsProtocol := if strStartsWith baseUrl "https" then "wss" else "ws"
  let wsHost := stripHttpScheme baseUrl
  wsProtocol ++ "://" ++ wsHost

/-! ### Helper lemmas -/

theorem clampPercent_nonneg (p : ℚ) : 0 ≤ clampPercent p := by
  unfold clampPercent jsMax jsMin
  split_ifs <;> linarith

theorem clampPercent_le_100 (p : ℚ) : clampPercent p ≤ 100 := by
  unfold clampPercent jsMax jsMin
  split_ifs <;> linarith

theorem clampPercent_of_mem (p : ℚ) (h0 : 0 ≤ p) (h1 : p ≤ 100) :
    clampPercent p = p := by
  unfold clampPercent jsMax jsMin
  split_ifs <;> linarith

theorem completedCount_le_totalAgents (b : AgentBoard) :
    completedCount b ≤ totalAgents :=
  le_trans (List.length_filter_le _ _) (le_refl 6)

theorem showAnalysisResults_untouched (s : AppState) :
    (showAnalysisResults s).analysisCompleted = s.analysisCompleted
    ∧ (showAnalysisResults s).isBattleComplete = s.isBattleComplete
    ∧ (showAnalysisResults s).reportTimeoutArmed = s.reportTimeoutArmed
    ∧ (showAnalysisResults s).degradedNotices = s.degradedNotices
    ∧ (showAnalysisResults s).analysisResults = s.analysisResults
    ∧ (showAnalysisResults s).analysisHasResults = s.analysisHasResults
    ∧ (showAnalysisResults s).agents = s.agents := by
  simp only [showAnalysisResults, setProgressState]
  split_ifs <;> exact ⟨rfl, rfl, rfl, rfl, rfl, rfl, rfl⟩

theorem handleAnalysisComplete_reportTimeoutArmed (s : AppState)
    (r : ResultsMap) (e : Nat) :
    (handleAnalysisComplete s r e).reportTimeoutArmed = false := by
  simp only [handleAnalysisComplete, showAnalysisResults, setProgressState]
  split_ifs <;> rfl

theorem handleAnalysisComplete_degradedNotices (s : AppState)
    (r : ResultsMap) (e : Nat) :
    (handleAnalysisComplete s r e).degradedNotices = s.degradedNotices := by
  simp only [handleAnalysisComplete, showAnalysisResults, setProgressState]
  split_ifs <;> rfl

theorem handlePhaseCompleted_report (s : AppState) :
    handlePhaseCompleted s Phase.report = { s with reportTimeoutArmed := true } := by
  unfold handlePhaseCompleted
  simp

theorem fireReportTimeout_degradedNotices (s : AppState) :
    (fireReportTimeout s).degradedNotices =
      if s.reportTimeoutArmed then s.degradedNotices + 1 else s.degradedNotices := by
  unfold fireReportTimeout
  split_ifs <;> rfl

/-! ### C4 -/

/-- C4: for every string c the format validator accepts c iff c consists of
four to six digit characters, i.e. matches the anchored regex of the source;
the sample codes behave as the spec lists them; and keystroke-level
validateInput applies the same predicate to the trimmed input, reporting
format-ok exactly on trimmed nonempty matches and a format error exactly on
trimmed nonempty non-matches. -/
theorem format_validator_matches_regex :
    (∀ c : String, matchesStockCodeRegex c = true ↔ MatchesDigitRegexSpec c)
    ∧ matchesStockCodeRegex "2330" = true
    ∧ matchesStockCodeRegex "AB12" = false
    ∧ matchesStockCodeRegex "12" = false
    ∧ matchesStockCodeRegex "1234567" = false
    ∧ (∀ v : String,
        validateInput v = InputFeedback.formatOk ↔
          (jsTrim v ≠ "" ∧ matchesStockCodeRegex (jsTrim v) = true))
    ∧ (∀ v : String,
        validateInput v = InputFeedback.formatError ↔
          (jsTrim v ≠ "" ∧ matchesStockCodeRegex (jsTrim v) = false)) := by
  refine ⟨?_, by decide, by decide, by decide, by decide, ?_, ?_⟩
  · intro c
    unfold matchesStockCodeRegex MatchesDigitRegexSpec
    simp [List.all_eq_true]
    exact and_assoc
  · intro v
    simp only [validateInput]
    split_ifs with h1 h2 <;> simp_all
  · intro v
    simp only [validateInput]
    split_ifs with h1 h2 <;> simp_all

/-- Closed instantiation of the C4 theorem at concrete inputs. -/
theorem format_validator_matches_regex_witness :
    MatchesDigitRegexSpec "2330"
    ∧ (jsTrim " 2330 " ≠ "" ∧ matchesStockCodeRegex (jsTrim " 2330 ") = true)
    ∧ validateInput " 2330 " = InputFeedback.formatOk :=
  ⟨(format_validator_matches_regex.1 "2330").mp (by decide),
   ⟨by decide, by decide⟩,
   (format_validator_matches_regex.2.2.2.2.2.1 " 2330 ").mpr ⟨by decide, by decide⟩⟩

/-! ### C2 -/

/-- C2 counterexample: the claim states that before submitting a
validate_stock request the controller re-checks the stock code against the
regex and blocks non-matching input, but validateStockCode submits the
request for the non-matching input AB12, both over an open socket and via
the offline substitute. -/
theorem validate_request_no_regex_gate_counterexample :
    matchesStockCodeRegex "AB12" = false
    ∧ (validateStockCode initialState "AB12" true).1 = SubmitAction.sendRequest
    ∧ (validateStockCode initialState "AB12" false).1 = SubmitAction.offlineFallback := by
  decide

/-- C2 amended: only startAnalysis re-checks the regex before submitting:
every input whose trim fails the regex is blocked there with a
validation-error state and the controller state is left unchanged, while
validateStockCode blocks only the empty trimmed input and submits every
other input (over the socket when open, else to the offline substitute)
without any regex re-check. -/
theorem submission_regex_gate_amended :
    (∀ (s : AppState) (v : String) (so : Bool),
        matchesStockCodeRegex (jsTrim v) = false →
          ((startAnalysis s v so).1 = SubmitAction.blockedEmpty ∨
            (startAnalysis s v so).1 = SubmitAction.blockedFormat)
          ∧ (startAnalysis s v so).2 = s)
    ∧ (∀ (s : AppState) (v : String) (so : Bool),
        jsTrim v ≠ "" →
          (validateStockCode s v so).1 =
            if so then SubmitAction.sendRequest else SubmitAction.offlineFallback) := by
  constructor
  · intro s v so h
    simp only [startAnalysis]
    by_cases h1 : jsTrim v = ""
    · simp [h1]
    · simp [h1, h]
  · intro s v so h
    simp only [validateStockCode]
    simp only [h, if_neg]
    cases so <;> simp

/-- Closed instantiation of the C2 amended theorem at the input AB12. -/
theorem submission_regex_gate_amended_witness :
    matchesStockCodeRegex (jsTrim "AB12") = false
    ∧ ((startAnalysis initialState "AB12" true).1 = SubmitAction.blockedEmpty ∨
        (startAnalysis initialState "AB12" true).1 = SubmitAction.blockedFormat)
    ∧ jsTrim "AB12" ≠ ""
    ∧ (validateStockCode initialState "AB12" true).1 =
        if true then SubmitAction.sendRequest else SubmitAction.offlineFallback :=
  ⟨by decide,
   (submission_regex_gate_amended.1 initialState "AB12" true (by decide)).1,
   by decide,
   submission_regex_gate_amended.2 initialState "AB12" true (by decide)⟩

/-! ### C7 -/

/-- C7: for every page hostname, a loopback hostname (as the source tests
it: localhost or 127.0.0.1) resolves the base URL to the fixed local
development origin and every other hostname to the fixed production origin;
the WebSocket URL replaces the http scheme by ws and the https scheme by wss
while keeping the host part of the base URL. -/
theorem backend_base_url_resolution :
    (∀ h : String,
        getBaseUrl h = if isLoopbackHostname h then localBaseUrl else productionBaseUrl)
    ∧ localBaseUrl = "http://localhost:8000"
    ∧ productionBaseUrl = "https://willis-stock-genie-api.onrender.com"
    ∧ (∀ h : String,
        getWebSocketUrl h =
          if isLoopbackHostname h then "ws://localhost:8000"
          else "wss://willis-stock-genie-api.onrender.com")
    ∧ (∀ h : String,
        getWebSocketUrl h =
          (if strStartsWith (getBaseUrl h) "https" then "wss" else "ws")
            ++ "://" ++ stripHttpScheme (getBaseUrl h)) := by
  refine ⟨fun h => rfl, rfl, rfl, ?_, fun h => rfl⟩
  intro h
  unfold getWebSocketUrl getBaseUrl
  by_cases hl : isLoopbackHostname h = true
  · simp only [hl, if_pos]
    decide
  · simp only [Bool.not_eq_true] at hl
    simp only [hl, Bool.false_eq_true, if_neg, if_false]
    decide

/-! ### C8 -/

/-- C8: with no open connection, validateStockCode routes the code 2330 to
the offline substitute, whose outcome (after the built-in delay) is the
success state carrying the known example company name from the built-in
table; every code absent from the table resolves to the failure state. -/
theorem offline_mock_validation :
    (∀ s : AppState, (validateStockCode s "2330" false).1 = SubmitAction.offlineFallback)
    ∧ useMockValidation "2330" =
        MockValidationOutcome.success ⟨"2330", "台積電", "半導體"⟩
    ∧ mockValidationDelayMs = 1000
    ∧ (∀ c : String, (∀ p ∈ mockStocks, p.1 ≠ c) →
        useMockValidation c = MockValidationOutcome.failure) := by
  refine ⟨fun s => rfl, by decide, rfl, ?_⟩
  intro c hc
  have hnone : List.find? (fun p => p.1 == c) mockStocks = none := by
    rw [List.find?_eq_none]
    intro p hp
    simp [hc p hp]
  unfold useMockValidation getMockStockInfo
  rw [hnone]
  rfl

/-- Closed instantiation of the C8 theorem at a code absent from the
table. -/
theorem offline_mock_validation_witness :
    (∀ p ∈ mockStocks, p.1 ≠ "9999")
    ∧ useMockValidation "9999" = MockValidationOutcome.failure :=
  ⟨by decide, offline_mock_validation.2.2.2 "9999" (by decide)⟩

/-! ### C3 -/

/-- C3 counterexample: the claim states that once an Agent Progress Record
is completed, a later agent_progress message never returns it to started or
waiting; but processing completed and then started for the sentiment agent
leaves its record in the started state again. -/
theorem agent_status_regression_counterexample :
    (run initialState
      [ClientEvent.agentProgress AgentId.sentiment AgentStatus.completed]).agents.sentiment
        = AgentStatus.completed
    ∧ (run initialState
        [ClientEvent.agentProgress AgentId.sentiment AgentStatus.completed,
         ClientEvent.agentProgress AgentId.sentiment AgentStatus.started]).agents.sentiment
        = AgentStatus.started := by
  decide

theorem AgentBoard.get_set_same (brd : AgentBoard) (a : AgentId) (v : AgentStatus) :
    (brd.set a v).get a = v := by
  cases a <;> rfl

theorem AgentBoard.get_set_ne (brd : AgentBoard) (a b : AgentId) (v : AgentStatus)
    (h : b ≠ a) : (brd.set a v).get b = brd.get b := by
  cases a <;> cases b <;> first | rfl | exact absurd rfl h

theorem updateProgressBar_agents (s : AppState) :
    (updateProgressBar s).agents = s.agents := rfl

theorem updateProgressBar_progress (s : AppState) :
    (updateProgressBar s).progress =
      ((completedCount s.agents : ℚ) / (totalAgents : ℚ)) * 100 := by
  simp only [updateProgressBar, setProgressState]
  refine clampPercent_of_mem _ ?_ ?_
  · unfold totalAgents
    positivity
  · have h6 : completedCount s.agents ≤ 6 := completedCount_le_totalAgents s.agents
    have h : (completedCount s.agents : ℚ) ≤ 6 := by exact_mod_cast h6
    unfold totalAgents
    push_cast
    linarith

/-- C3 amended: handleAgentProgress makes the targeted record track the last
processed message rather than advancing monotonically: a started message
sets the record to started even when it was already completed, a completed
message sets it to completed, any other status leaves the cards unchanged,
and records of other agents are never touched; so monotonicity holds only
for message sequences in which no started message follows a completed
message for the same agent. -/
theorem agent_progress_last_message_wins (s : AppState) (a : AgentId) :
    ((step s (ClientEvent.agentProgress a AgentStatus.started)).agents.get a
        = AgentStatus.started)
    ∧ ((step s (ClientEvent.agentProgress a AgentStatus.completed)).agents.get a
        = AgentStatus.completed)
    ∧ ((step s (ClientEvent.agentProgress a AgentStatus.waiting)).agents = s.agents)
    ∧ (∀ (b : AgentId) (st : AgentStatus), b ≠ a →
        (step s (ClientEvent.agentProgress a st)).agents.get b = s.agents.get b) := by
  refine ⟨AgentBoard.get_set_same _ _ _, ?_, rfl, ?_⟩
  · show (updateProgressBar _).agents.get a = _
    rw [updateProgressBar_agents]
    exact AgentBoard.get_set_same _ _ _
  · intro b st hb
    cases st
    · rfl
    · exact AgentBoard.get_set_ne _ _ _ _ hb
    · show (updateProgressBar _).agents.get b = _
      rw [updateProgressBar_agents]
      exact AgentBoard.get_set_ne _ _ _ _ hb

/-- Closed instantiation of the C3 amended theorem: started overrides a
record, and a completed message for sentiment leaves the risk record
alone. -/
theorem agent_progress_last_message_wins_witness :
    (step initialState
        (ClientEvent.agentProgress AgentId.sentiment AgentStatus.started)).agents.get
          AgentId.sentiment = AgentStatus.started
    ∧ (step initialState
        (ClientEvent.agentProgress AgentId.sentiment AgentStatus.completed)).agents.get
          AgentId.risk = initialState.agents.get AgentId.risk :=
  ⟨(agent_progress_last_message_wins initialState AgentId.sentiment).1,
   (agent_progress_last_message_wins initialState AgentId.sentiment).2.2.2
      AgentId.risk AgentStatus.completed (by decide)⟩

/-! ### C5 -/

/-- C5: processing phase_completed with phase report arms the 30-second
watchdog (clearing any pending one, so at most one is pending); processing
analysis_complete cancels it, after which an expiry shows no degraded-mode
notice; an expiry with no analysis_complete in between shows the notice
exactly once (a second expiry event adds nothing); and re-arming first
clears the existing timer, so a single expiry after two phase_completed
report messages still shows exactly one notice. -/
theorem report_watchdog_behaviour (s : AppState) (r : ResultsMap) (e : Nat) :
    reportWatchdogDelayMs = 30000
    ∧ (step s (ClientEvent.phaseCompleted Phase.report)).reportTimeoutArmed = true
    ∧ (step s (ClientEvent.phaseCompleted Phase.report)).degradedNotices
        = s.degradedNotices
    ∧ (step s (ClientEvent.analysisComplete r e)).reportTimeoutArmed = false
    ∧ (run s [ClientEvent.phaseCompleted Phase.report,
        ClientEvent.analysisComplete r e,
        ClientEvent.reportTimeoutFire]).degradedNotices = s.degradedNotices
    ∧ (run s [ClientEvent.phaseCompleted Phase.report,
        ClientEvent.reportTimeoutFire]).degradedNotices = s.degradedNotices + 1
    ∧ (run s [ClientEvent.phaseCompleted Phase.report,
        ClientEvent.reportTimeoutFire,
        ClientEvent.reportTimeoutFire]).degradedNotices = s.degradedNotices + 1
    ∧ (run s [ClientEvent.phaseCompleted Phase.report,
        ClientEvent.phaseCompleted Phase.report,
        ClientEvent.reportTimeoutFire]).degradedNotices = s.degradedNotices + 1 := by
  refine ⟨rfl, ?_, ?_, handleAnalysisComplete_reportTimeoutArmed s r e, ?_, ?_, ?_, ?_⟩
  · simp [step, handlePhaseCompleted_report]
  · simp [step, handlePhaseCompleted_report]
  · simp [run, step, handlePhaseCompleted_report, fireReportTimeout_degradedNotices,
      handleAnalysisComplete_reportTimeoutArmed, handleAnalysisComplete_degradedNotices]
  · simp [run, step, handlePhaseCompleted_report, fireReportTimeout_degradedNotices,
      fireReportTimeout]
  · simp [run, step, handlePhaseCompleted_report, fireReportTimeout_degradedNotices,
      fireReportTimeout]
  · simp [run, step, handlePhaseCompleted_report, fireReportTimeout_degradedNotices,
      fireReportTimeout]

/-! ### C6 -/

/-- C6: after each agent_progress event with status completed is processed,
the stored progress percentage equals completedAgents / 6 * 100, where
completedAgents is the number of records currently completed; that count
never exceeds the six agents, so the clamp in setProgress is the
identity here. -/
theorem progress_equals_completed_fraction (s : AppState) (a : AgentId) :
    completedCount (step s (ClientEvent.agentProgress a AgentStatus.completed)).agents
        ≤ totalAgents
    ∧ (step s (ClientEvent.agentProgress a AgentStatus.completed)).progress =
        ((completedCount
            (step s (ClientEvent.agentProgress a AgentStatus.completed)).agents : ℚ)
          / (totalAgents : ℚ)) * 100 := by
  refine ⟨completedCount_le_totalAgents _, ?_⟩
  have hstep : step s (ClientEvent.agentProgress a AgentStatus.completed)
      = updateProgressBar { s with agents := s.agents.set a AgentStatus.completed } := rfl
  rw [hstep, updateProgressBar_progress, updateProgressBar_agents]

/-! ### C10 -/

theorem showAnalysisResults_progress (s : AppState) :
    (showAnalysisResults s).progress =
      if s.resultsDisplayed then s.progress else clampPercent 100 := by
  simp only [showAnalysisResults, setProgressState]
  split_ifs <;> rfl

theorem handleBattleResults_progress (s : AppState) (r : BattleResult) :
    (handleBattleResults s r).progress = clampPercent 95
    ∨ (handleBattleResults s r).progress = clampPercent 100 := by
  simp only [handleBattleResults, showAnalysisResults, setProgressState]
  split_ifs <;> simp

theorem handleAnalysisComplete_progress (s : AppState) (r : ResultsMap) (e : Nat) :
    (handleAnalysisComplete s r e).progress = s.progress
    ∨ (handleAnalysisComplete s r e).progress = clampPercent 90
    ∨ (handleAnalysisComplete s r e).progress = clampPercent 100 := by
  simp only [handleAnalysisComplete, showAnalysisResults, setProgressState]
  split_ifs <;> simp

theorem step_progress_range (s : AppState) (e : ClientEvent)
    (h0 : 0 ≤ s.progress) (h1 : s.progress ≤ 100) :
    0 ≤ (step s e).progress ∧ (step s e).progress ≤ 100 := by
  have hc : ∀ p : ℚ, 0 ≤ clampPercent p ∧ clampPercent p ≤ 100 :=
    fun p => ⟨clampPercent_nonneg p, clampPercent_le_100 p⟩
  cases e with
  | agentProgress a st =>
      cases st
      · exact ⟨h0, h1⟩
      · exact ⟨h0, h1⟩
      · have hstep : step s (ClientEvent.agentProgress a AgentStatus.completed)
            = updateProgressBar
                { s with agents := s.agents.set a AgentStatus.completed } := rfl
        rw [hstep, updateProgressBar_progress]
        have h : (completedCount
            ({ s with agents := s.agents.set a AgentStatus.completed } : AppState).agents
              : ℚ) ≤ 6 := by
          exact_mod_cast
            (show completedCount
                ({ s with agents := s.agents.set a AgentStatus.completed }
                  : AppState).agents ≤ 6 from completedCount_le_totalAgents _)
        constructor
        · unfold totalAgents
          positivity
        · unfold totalAgents
          push_cast at h ⊢
          linarith
  | battleStarted => exact hc _
  | battleResults r =>
      show 0 ≤ (handleBattleResults s r).progress
        ∧ (handleBattleResults s r).progress ≤ 100
      rcases handleBattleResults_progress s r with h | h <;> rw [h] <;> exact hc _
  | analysisComplete r el =>
      show 0 ≤ (handleAnalysisComplete s r el).progress
        ∧ (handleAnalysisComplete s r el).progress ≤ 100
      rcases handleAnalysisComplete_progress s r el with h | h | h
      · rw [h]; exact ⟨h0, h1⟩
      · rw [h]; exact hc _
      · rw [h]; exact hc _
  | phaseCompleted ph =>
      show 0 ≤ (handlePhaseCompleted s ph).progress
        ∧ (handlePhaseCompleted s ph).progress ≤ 100
      unfold handlePhaseCompleted
      split_ifs
      · exact ⟨h0, h1⟩
      · exact ⟨h0, h1⟩
  | reportTimeoutFire =>
      show 0 ≤ (fireReportTimeout s).progress
        ∧ (fireReportTimeout s).progress ≤ 100
      unfold fireReportTimeout
      split_ifs
      · exact ⟨h0, h1⟩
      · exact ⟨h0, h1⟩

theorem run_progress_range (es : List ClientEvent) :
    0 ≤ (run initialState es).progress ∧ (run initialState es).progress ≤ 100 := by
  suffices h : ∀ s : AppState, 0 ≤ s.progress → s.progress ≤ 100 →
      0 ≤ (run s es).progress ∧ (run s es).progress ≤ 100 by
    exact h initialState (le_refl 0) (by norm_num [initialState])
  induction es with
  | nil => exact fun s h0 h1 => ⟨h0, h1⟩
  | cons e es ih =>
      intro s h0 h1
      have hs := step_progress_range s e h0 h1
      exact ih (step s e) hs.1 hs.2

/-! ### C1 -/

/-- The display-once invariant: while nothing is displayed the ghost display
counter is zero, and once resultsDisplayed holds the body of
showAnalysisResults has run exactly once and both completion flags hold. -/
def DisplayOnceInv (s : AppState) : Prop :=
  (s.resultsDisplayed = false → s.displayCount = 0)
  ∧ (s.resultsDisplayed = true →
      s.displayCount = 1 ∧ s.analysisCompleted = true ∧ s.isBattleComplete = true)

theorem step_displayOnceInv (s : AppState) (e : ClientEvent)
    (h : DisplayOnceInv s) : DisplayOnceInv (step s e) := by
  obtain ⟨hf, ht⟩ := h
  cases e with
  | agentProgress a st =>
      cases st
      · exact ⟨hf, ht⟩
      · exact ⟨hf, ht⟩
      · exact ⟨hf, ht⟩
  | battleStarted => exact ⟨hf, ht⟩
  | phaseCompleted ph =>
      show DisplayOnceInv (handlePhaseCompleted s ph)
      unfold handlePhaseCompleted
      split_ifs
      · exact ⟨hf, ht⟩
      · exact ⟨hf, ht⟩
  | reportTimeoutFire =>
      show DisplayOnceInv (fireReportTimeout s)
      unfold fireReportTimeout
      split_ifs
      · exact ⟨hf, ht⟩
      · exact ⟨hf, ht⟩
  | battleResults r =>
      show DisplayOnceInv (handleBattleResults s r)
      cases hd : s.resultsDisplayed <;> cases ha : s.analysisCompleted <;>
        cases hw : s.awaitingBattleCompletion <;>
          simp_all [handleBattleResults, showAnalysisResults, setProgressState,
            DisplayOnceInv] <;>
          split_ifs <;> simp_all
  | analysisComplete r el =>
      show DisplayOnceInv (handleAnalysisComplete s r el)
      cases hd : s.resultsDisplayed <;> cases hb : s.isBattleComplete <;>
        simp_all [handleAnalysisComplete, showAnalysisResults, setProgressState,
          DisplayOnceInv] <;>
        split_ifs <;> simp_all

theorem run_displayOnceInv (s : AppState) (es : List ClientEvent)
    (h : DisplayOnceInv s) : DisplayOnceInv (run s es) := by
  induction es generalizing s with
  | nil => exact h
  | cons e es ih => exact ih (step s e) (step_displayOnceInv s e h)

/-- Run in which analysis_complete is processed before battle_results. -/
def orderAnalysisFirst (r : ResultsMap) (b : BattleResult) (e : Nat) : AppState :=
  run initialState [ClientEvent.analysisComplete r e, ClientEvent.battleResults b]

/-- Run in which battle_results is processed before analysis_complete. -/
def orderBattleFirst (r : ResultsMap) (b : BattleResult) (e : Nat) : AppState :=
  run initialState [ClientEvent.battleResults b, ClientEvent.analysisComplete r e]

/-- C1 counterexample: with a results payload that carries no battle entry,
both arrival orders trigger the display exactly once, but the final stored
analysisResults — the data the deferred display reads — differ: processing
battle_results second keeps the stored battle entry, processing
analysis_complete second overwrites it away; so the final displayed state is
not identical for both arrival orders. -/
theorem display_order_dependence_counterexample :
    (orderAnalysisFirst ⟨none, 3⟩ ⟨"看多", [("看多", 4), ("看空", 2)]⟩ 12).displayCount = 1
    ∧ (orderBattleFirst ⟨none, 3⟩ ⟨"看多", [("看多", 4), ("看空", 2)]⟩ 12).displayCount = 1
    ∧ (orderAnalysisFirst ⟨none, 3⟩ ⟨"看多", [("看多", 4), ("看空", 2)]⟩ 12).analysisResults
        = some ⟨some ⟨"看多", [("看多", 4), ("看空", 2)]⟩, 3⟩
    ∧ (orderBattleFirst ⟨none, 3⟩ ⟨"看多", [("看多", 4), ("看空", 2)]⟩ 12).analysisResults
        = some ⟨none, 3⟩
    ∧ (orderAnalysisFirst ⟨none, 3⟩ ⟨"看多", [("看多", 4), ("看空", 2)]⟩ 12).analysisResults
        ≠ (orderBattleFirst ⟨none, 3⟩ ⟨"看多", [("看多", 4), ("看空", 2)]⟩ 12).analysisResults := by
  refine ⟨by decide, by decide, by decide, by decide, by decide⟩

/-- C1 amended: over every event sequence the display body runs at most
once, runs only when both analysisCompleted and isBattleComplete hold, and
is blocked by the resultsDisplayed flag (zero runs while it is unset); for
the two orderings of the completion pair, whichever message is processed
second triggers the single display and the final flag, progress and toast
state agree; but the stored analysisResults differ whenever the results
payload lacks a battle entry, because handleAnalysisComplete overwrites the
object into which handleBattleResults stored the battle result: the
analysis-first order ends with the battle entry merged in, the battle-first
order ends with the bare results payload. -/
theorem display_once_barrier_amended :
    (∀ es : List ClientEvent,
        (run initialState es).displayCount ≤ 1
        ∧ ((run initialState es).resultsDisplayed = false →
            (run initialState es).displayCount = 0)
        ∧ (1 ≤ (run initialState es).displayCount →
            (run initialState es).analysisCompleted = true
            ∧ (run initialState es).isBattleComplete = true))
    ∧ (∀ (r : ResultsMap) (b : BattleResult) (e : Nat),
        (orderAnalysisFirst r b e).displayCount = 1
        ∧ (orderBattleFirst r b e).displayCount = 1
        ∧ (orderAnalysisFirst r b e).resultsDisplayed = true
        ∧ (orderBattleFirst r b e).resultsDisplayed = true
        ∧ (orderAnalysisFirst r b e).analysisCompleted = true
        ∧ (orderBattleFirst r b e).analysisCompleted = true
        ∧ (orderAnalysisFirst r b e).isBattleComplete = true
        ∧ (orderBattleFirst r b e).isBattleComplete = true
        ∧ (orderAnalysisFirst r b e).progress = (orderBattleFirst r b e).progress
        ∧ (orderAnalysisFirst r b e).pendingSuccessToast
            = (orderBattleFirst r b e).pendingSuccessToast
        ∧ (orderAnalysisFirst r b e).analysisHasResults
            = (orderBattleFirst r b e).analysisHasResults
        ∧ (orderAnalysisFirst r b e).analysisResults = some { r with battle := some b }
        ∧ (orderBattleFirst r b e).analysisResults = some r) := by
  constructor
  · intro es
    have hinv : DisplayOnceInv (run initialState es) :=
      run_displayOnceInv initialState es (by simp [DisplayOnceInv, initialState])
    obtain ⟨hf, ht⟩ := hinv
    cases hd : (run initialState es).resultsDisplayed
    · have h0 := hf hd
      exact ⟨by omega, fun _ => h0, fun hc => by omega⟩
    · obtain ⟨h1, h2, h3⟩ := ht hd
      exact ⟨by omega, fun hfalse => by simp [hd] at hfalse, fun _ => ⟨h2, h3⟩⟩
  · intro r b e
    cases hr : r.isNonempty <;>
      simp_all [orderAnalysisFirst, orderBattleFirst, run, step,
        handleAnalysisComplete, handleBattleResults, showAnalysisResults,
        setProgressState, initialState]

/-- Closed instantiation of the C1 amended theorem. -/
theorem display_once_barrier_amended_witness :
    (run initialState []).displayCount = 0
    ∧ (orderAnalysisFirst ⟨none, 1⟩ ⟨"看多", [("看多", 4)]⟩ 7).displayCount = 1
    ∧ (run initialState
        [ClientEvent.battleResults ⟨"看多", [("看多", 4)]⟩,
         ClientEvent.analysisComplete ⟨none, 1⟩ 7]).analysisCompleted = true :=
  ⟨(display_once_barrier_amended.1 []).2.1 (by decide),
   (display_once_barrier_amended.2 ⟨none, 1⟩ ⟨"看多", [("看多", 4)]⟩ 7).1,
   ((display_once_barrier_amended.1
      [ClientEvent.battleResults ⟨"看多", [("看多", 4)]⟩,
       ClientEvent.analysisComplete ⟨none, 1⟩ 7]).2.2 (by decide)).1⟩

/-! ### C9 -/

/-- C9: resetProgress clears analysisCompleted, isBattleComplete,
awaitingBattleCompletion, resultsDisplayed, analysisHasResults and
pendingSuccessToast and zeroes the progress bar; startAnalysis applies it
(after recording the trimmed code) on every input passing the regex gate
before submitting; and from any reset state the completion pair triggers the
display again, incrementing the ghost display counter even when a prior run
already displayed results. -/
theorem reset_progress_rearms_display (s : AppState) :
    (resetProgress s).analysisCompleted = false
    ∧ (resetProgress s).isBattleComplete = false
    ∧ (resetProgress s).awaitingBattleCompletion = false
    ∧ (resetProgress s).resultsDisplayed = false
    ∧ (resetProgress s).analysisHasResults = false
    ∧ (resetProgress s).pendingSuccessToast = false
    ∧ (resetProgress s).progress = 0
    ∧ (∀ (v : String) (so : Bool), matchesStockCodeRegex (jsTrim v) = true →
        (startAnalysis s v so).2 = resetProgress { s with currentStock := some (jsTrim v) })
    ∧ (∀ (b : BattleResult) (r : ResultsMap) (e : Nat),
        (run (resetProgress s) [ClientEvent.battleResults b,
          ClientEvent.analysisComplete r e]).resultsDisplayed = true
        ∧ (run (resetProgress s) [ClientEvent.battleResults b,
            ClientEvent.analysisComplete r e]).displayCount = s.displayCount + 1) := by
  refine ⟨rfl, rfl, rfl, rfl, rfl, rfl, ?_, ?_, ?_⟩
  · show clampPercent 0 = 0
    norm_num [clampPercent, jsMax, jsMin]
  · intro v so h
    have hne : jsTrim v ≠ "" := by
      intro he
      rw [he] at h
      exact absurd h (by decide)
    simp only [startAnalysis]
    rw [if_neg hne, if_neg (by simp [h])]
    cases so <;> rfl
  · intro b r e
    cases hr : r.isNonempty <;>
      simp_all [run, step, resetProgress, setProgressState, handleBattleResults,
        handleAnalysisComplete, showAnalysisResults]

/-- Closed instantiation of the C9 theorem. -/
theorem reset_progress_rearms_display_witness :
    matchesStockCodeRegex (jsTrim "2330") = true
    ∧ (startAnalysis initialState "2330" false).2 =
        resetProgress { initialState with currentStock := some (jsTrim "2330") }
    ∧ (run (resetProgress initialState)
        [ClientEvent.battleResults ⟨"看多", []⟩,
         ClientEvent.analysisComplete ⟨none, 1⟩ 3]).displayCount
        = initialState.displayCount + 1 := by
  have h := reset_progress_rearms_display initialState
  exact ⟨by decide, h.2.2.2.2.2.2.2.1 "2330" false (by decide),
    (h.2.2.2.2.2.2.2.2 ⟨"看多", []⟩ ⟨none, 1⟩ 3).2⟩

/-- C10: setProgress clamps every rational percentage into the closed
interval from 0 to 100, the displayed rounded percentage also lies in that
interval, and along every event sequence from the initial state the stored
progress stays in the interval. -/
theorem set_progress_clamped :
    (∀ (p : ℚ) (s : AppState),
        (setProgressState s p).progress = clampPercent p
        ∧ 0 ≤ clampPercent p ∧ clampPercent p ≤ 100
        ∧ 0 ≤ jsRound (clampPercent p) ∧ jsRound (clampPercent p) ≤ 100)
    ∧ (∀ es : List ClientEvent,
        0 ≤ (run initialState es).progress ∧ (run initialState es).progress ≤ 100) := by
  refine ⟨fun p s => ⟨rfl, clampPercent_nonneg p, clampPercent_le_100 p, ?_, ?_⟩,
    run_progress_range⟩
  · exact Int.le_floor.mpr (by push_cast; linarith [clampPercent_nonneg p])
  · have hlt : jsRound (clampPercent p) < 101 := by
      rw [jsRound, Int.floor_lt]
      push_cast
      linarith [clampPercent_le_100 p]
    omega

end StockGenie
